import Mathlib

/-!
Verification of the Minio object-storage adapter
(`src/api/server/services/Files/Minio/crud.js`).

The JavaScript functions are shallowly embedded as pure Lean functions.
Strings are Lean `String`s manipulated through their underlying `List Char`
(`String.data`), so that the JS string primitives the source uses
(`split('/')`, `substring`, `includes`, `startsWith`, template literals)
have direct, executable counterparts.  Side-effecting collaborators (the
object-storage client, the filesystem, the signed-URL issuer) are passed in
as explicit outcome parameters or abstract functions returning `Except`,
and each embedded operation returns its observable result together with
the storage commands it issued / the final local-filesystem state.
Timestamps are integer epoch milliseconds; the JS `NaN` produced by an
invalid `Date` or a failed `parseInt` is modelled by `Option Int`, with the
JS rule that every comparison against `NaN` is false.
-/

/-! ## List-of-char utilities mirroring the JS string primitives -/

/-- Fold a digit list into the natural number it denotes (base 10). -/
def digitsToNat (l : List Char) : Nat :=
  l.foldl (fun acc c => acc * 10 + (c.toNat - 48)) 0

/-- Boolean list-prefix test (used for JS `String.prototype.startsWith`). -/
def isPrefixListB : List Char → List Char → Bool
  | [], _ => true
  | _ :: _, [] => false
  | a :: as, b :: bs => a == b && isPrefixListB as bs

/-- Boolean contiguous-sublist test on char lists. -/
def infixListB (n : List Char) : List Char → Bool
  | [] => n.isEmpty
  | c :: t => isPrefixListB n (c :: t) || infixListB n t

/-- JS `hay.includes(needle)`: `needle` occurs contiguously in `hay`. -/
def isInfixB (needle hay : String) : Bool :=
  infixListB needle.data hay.data

/-- JS `s.startsWith(pre)`. -/
def jsStartsWith (s pre : String) : Bool :=
  isPrefixListB pre.data s.data

/-- JS `s.split(sep)`: split a char list at every occurrence of `sep`.
The result is always non-empty and keeps empty pieces, matching JS
(`"a/".split('/') = ["a", ""]`, `"".split('/') = [""]`). -/
def splitOnChar (sep : Char) : List Char → List (List Char)
  | [] => [[]]
  | c :: rest =>
    match splitOnChar sep rest with
    | [] => [[]]
    | g :: gs => if c == sep then [] :: g :: gs else (c :: g) :: gs

/-- Inverse of `splitOnChar`: interleave `sep` between the pieces
(JS `parts.join(sep)`). -/
def joinOnChar (sep : Char) : List (List Char) → List Char
  | [] => []
  | [x] => x
  | x :: y :: t => x ++ sep :: joinOnChar sep (y :: t)

/-- JS `s.split('/')` on strings. -/
def jsSplitSlash (s : String) : List String :=
  (splitOnChar '/' s.data).map String.mk

/-- JS `parts.join('/')` on strings. -/
def jsJoinSlash (l : List String) : String :=
  String.mk (joinOnChar '/' (l.map String.data))

/-- JS `s.substring(start, stop)`: clamps both indices to the string length
and swaps them when `start > stop`. -/
def jsSubstring (s : String) (start stop : Nat) : String :=
  String.mk ((s.data.take (max start stop)).drop (min start stop))

/-- JS `s.substring(n)` (drop the first `n` characters). -/
def jsSubstringDrop (s : String) (n : Nat) : String :=
  String.mk (s.data.drop n)

/-- Whether a character occurs in a string. -/
def strHasChar (s : String) (c : Char) : Bool :=
  s.data.contains c

/-- JS falsiness of an optional string field: absent (`undefined`/`null`)
or the empty string. -/
def isFalsyStr : Option String → Bool
  | none => true
  | some s => s == ""

/-- JS `parseInt(s)` restricted to base 10 (the only form the source uses;
its arguments are decimal TTL strings, so the `0x` prefix case of `parseInt`
is not modelled): skip leading whitespace, read an optional sign and then
the longest run of leading decimal digits; `none` models the `NaN` result
when no digit is found. -/
def jsParseInt (s : String) : Option Int :=
  let core : List Char → Option Nat := fun cs =>
    let ds := cs.takeWhile Char.isDigit
    if ds.isEmpty then none else some (digitsToNat ds)
  match s.data.dropWhile (fun c => c == ' ' || c == '\t' || c == '\n' || c == '\r') with
  | '+' :: rest => (core rest).map Int.ofNat
  | '-' :: rest => (core rest).map (fun n => -(n : Int))
  | rest => (core rest).map Int.ofNat

/-! ## WHATWG `new URL` model

The source uses `new URL(s)` only to (a) detect whether a string is an
absolute URL (the constructor throws otherwise), (b) read `url.pathname`,
and (c) read query parameters through `url.searchParams`.  The model
parses `scheme ':' ...`: a valid scheme is one ASCII letter followed by
letters, digits, `+`, `-` or `.`; with a `//` authority the pathname is
the part from the first `/` after the host up to `?` or `#` (or `/` when
absent), otherwise the remainder up to `?` or `#` is the (opaque) path.
Query parameters are the `&`-separated `name=value` pieces after `?`
(percent-decoding is not modelled; the source only reads the plain
`X-Amz-*` parameters). -/

structure JsUrl where
  pathname : String
  query : List (String × String)
deriving DecidableEq

/-- Characters allowed in a URL scheme after the initial letter. -/
def isSchemeChar (c : Char) : Bool :=
  c.isAlpha || c.isDigit || c == '+' || c == '-' || c == '.'

/-- A valid URL scheme: non-empty, starts with a letter, scheme chars only. -/
def validScheme : List Char → Bool
  | [] => false
  | c :: cs => c.isAlpha && (c :: cs).all isSchemeChar

/-- The query portion of the part after the scheme: characters strictly
after the first `?` (and before any `#`). -/
def queryOf (cs : List Char) : List Char :=
  match (cs.takeWhile (fun c => !(c == '#'))).dropWhile (fun c => !(c == '?')) with
  | [] => []
  | _ :: q => q

/-- Parse a query string into its `name=value` pairs; empty pieces are
skipped and a piece without `=` gets the empty value, as in
`URLSearchParams`. -/
def parseQuery (q : List Char) : List (String × String) :=
  (splitOnChar '&' q).filterMap (fun piece =>
    if piece.isEmpty then none
    else
      let nm := piece.takeWhile (fun c => !(c == '='))
      let v := match piece.dropWhile (fun c => !(c == '=')) with
        | [] => []
        | _ :: v => v
      some (String.mk nm, String.mk v))

/-- Build the `JsUrl` from the characters following `scheme:`. -/
def parseAfterScheme (rest : List Char) : JsUrl :=
  match rest with
  | '/' :: '/' :: r =>
    let afterHost := r.dropWhile (fun c => !(c == '/' || c == '?' || c == '#'))
    let path := afterHost.takeWhile (fun c => !(c == '?' || c == '#'))
    { pathname := String.mk (if path.isEmpty then ['/'] else path)
      query := parseQuery (queryOf r) }
  | _ =>
    { pathname := String.mk (rest.takeWhile (fun c => !(c == '?' || c == '#')))
      query := parseQuery (queryOf rest) }

/-- `new URL(s)`: `none` models the thrown `TypeError` when `s` has no
valid scheme. -/
def parseURL (s : String) : Option JsUrl :=
  match s.data.dropWhile (fun c => !(c == ':')) with
  | [] => none
  | _ :: rest =>
    if validScheme (s.data.takeWhile (fun c => !(c == ':'))) then
      some (parseAfterScheme rest)
    else none

/-- `url.searchParams.get(name)`: first value for `name`, `none` for JS
`null`. -/
def getParam (u : JsUrl) (name : String) : Option String :=
  (u.query.find? (fun p => p.1 == name)).map (fun p => p.2)

/-- `url.searchParams.has(name)`. -/
def hasParam (u : JsUrl) (name : String) : Bool :=
  u.query.any (fun p => p.1 == name)

/-! ## JS `Date` model

`needsRefresh` builds `new Date(year-month-dayThour:minute:secondZ)` from
fixed substrings of the `X-Amz-Date` parameter.  The model returns the
epoch timestamp in milliseconds when the six pieces form a valid ISO
date-time (correct digit widths and calendar ranges, the cases the V8
parser accepts for this template) and `none` — JS `Invalid Date`, whose
`getTime()` is `NaN` — otherwise. -/

/-- Gregorian leap-year predicate. -/
def isLeapYear (y : Nat) : Bool :=
  (y % 4 == 0 && y % 100 != 0) || y % 400 == 0

/-- Days in a month of the proleptic Gregorian calendar. -/
def daysInMonth (y m : Nat) : Nat :=
  if m == 2 then (if isLeapYear y then 29 else 28)
  else if m == 4 || m == 6 || m == 9 || m == 11 then 30
  else 31

/-- Day count of a civil date, shifted by one 400-year era so that the
computation stays in `Nat` (argument `y` is the real year plus 400). -/
def daysFromCivilShifted (y m d : Nat) : Nat :=
  let y' := if m ≤ 2 then y - 1 else y
  let era := y' / 400
  let yoe := y' % 400
  let mp := if m > 2 then m - 3 else m + 9
  let doy := (153 * mp + 2) / 5 + d - 1
  let doe := yoe * 365 + yoe / 4 - yoe / 100 + doy
  era * 146097 + doe

/-- Epoch milliseconds of a UTC civil date-time. -/
def epochMsOfUTC (y mo d h mi s : Nat) : Int :=
  ((daysFromCivilShifted (y + 400) mo d : Int) - 146097 - 719468) * 86400000
    + ((h * 3600000 + mi * 60000 + s * 1000 : Nat) : Int)

/-- A fixed-width run of decimal digits, as demanded by the ISO date
grammar for each component. -/
def parseDatePart (s : String) (width : Nat) : Option Nat :=
  if s.data.length == width && s.data.all Char.isDigit then
    some (digitsToNat s.data)
  else none

/-- Model of `new Date(\x7byear\x7d-\x7bmonth\x7d-\x7bday\x7dT\x7bhour\x7d:\x7bminute\x7d:\x7bsecond\x7dZ).getTime()`
applied to the substrings the source extracts from the `X-Amz-Date`
parameter (`substring(0,4)`, `(4,6)`, `(6,8)`, `(9,11)`, `(11,13)`,
`(13,15)`). -/
def parseAmzDate (dateParam : String) : Option Int :=
  match parseDatePart (jsSubstring dateParam 0 4) 4,
        parseDatePart (jsSubstring dateParam 4 6) 2,
        parseDatePart (jsSubstring dateParam 6 8) 2,
        parseDatePart (jsSubstring dateParam 9 11) 2,
        parseDatePart (jsSubstring dateParam 11 13) 2,
        parseDatePart (jsSubstring dateParam 13 15) 2 with
  | some y, some mo, some d, some h, some mi, some s =>
    if 1 ≤ mo ∧ mo ≤ 12 ∧ 1 ≤ d ∧ d ≤ daysInMonth y mo
        ∧ h ≤ 23 ∧ mi ≤ 59 ∧ s ≤ 59 then
      some (epochMsOfUTC y mo d h mi s)
    else none
  | _, _, _, _, _, _ => none

/-! ## The Minio adapter (`src/api/server/services/Files/Minio/crud.js`) -/

/-- An error object thrown by the storage SDK or the filesystem; the source
inspects `err.name` (`'NotFound'`) and `err.code` (`'NoSuchKey'`,
`'ENOENT'`). -/
structure ErrObj where
  name : String
  code : String
deriving DecidableEq

/-- `Modelled from the spec:` the value of the `FileSources.client` constant
imported from the external `librechat-data-provider` package (not in the
repository) — "origin tag indicating this storage backend vs. others".
The claims' theorems do not depend on the concrete value. -/
def FileSources_client : String := "client"

/-- `getMinioKey` (line 49): the key template
`basePath + "/" + userId + "/" + fileName`. -/
def getMinioKey (basePath userId fileName : String) : String :=
  basePath ++ "/" ++ userId ++ "/" ++ fileName

/-- `extractKeyFromMinioUrl` (lines 230-247).  `Except.error` models the
thrown `Error` on empty input; every other path returns a key.  When the
input parses as a URL the key is the pathname minus its first character;
otherwise a string with at least three `/`-separated parts that starts with
neither `http` nor `/` is already a bare key, and any other string is
returned with a leading `/` stripped. -/
def extractKeyFromMinioUrl (fileUrlOrKey : String) : Except String String :=
  if fileUrlOrKey = "" then
    Except.error "Invalid input: URL or key is empty"
  else
    match parseURL fileUrlOrKey with
    | some url => Except.ok (jsSubstringDrop url.pathname 1)
    | none =>
      let parts := jsSplitSlash fileUrlOrKey
      if 3 ≤ parts.length
          ∧ jsStartsWith fileUrlOrKey "http" = false
          ∧ jsStartsWith fileUrlOrKey "/" = false then
        Except.ok fileUrlOrKey
      else
        Except.ok (if jsStartsWith fileUrlOrKey "/" = true then
          jsSubstringDrop fileUrlOrKey 1 else fileUrlOrKey)

/-- The decoding of a filepath into its `(basePath, ownerId, fileName)`
triple as performed by `getNewMinioURL` (lines 335-346) and
`refreshMinioUrl` (lines 427-441): extract the key, fail on a falsy key or
on fewer than three `/`-separated parts, otherwise take the first part,
the second part, and the remaining parts rejoined with `/`. -/
def decodeKeyTriple (urlOrKey : String) : Option (String × String × String) :=
  match extractKeyFromMinioUrl urlOrKey with
  | Except.error _ => none
  | Except.ok key =>
    if key = "" then none
    else
      let parts := jsSplitSlash key
      if parts.length < 3 then none
      else some (parts.getD 0 "", parts.getD 1 "", jsJoinSlash (parts.drop 2))

/-- `needsRefresh` (lines 276-326).  `now` is the current epoch time in
milliseconds (`new Date()`), `refreshExpiryMs` the module-level
`minioRefreshExpiryMs` (`none` when `MINIO_REFRESH_EXPIRY_MS` is unset).
An unparseable URL throws inside the `try`, so the `catch` returns `true`.
A URL without the `X-Amz-Signature` marker is never refreshed.  Missing or
empty `X-Amz-Expires` / `X-Amz-Date` parameters report `true`.  Otherwise
the issue time is read from `X-Amz-Date`; an invalid date gives `NaN`
(`none`), and every JS comparison against `NaN` is false, so both the
max-age branch and the buffer branch report `false` in that case. -/
def needsRefresh (signedUrl : String) (bufferSeconds : Int) (now : Int)
    (refreshExpiryMs : Option Int) : Bool :=
  match parseURL signedUrl with
  | none => true
  | some url =>
    if hasParam url "X-Amz-Signature" = false then false
    else
      let expiresParam := getParam url "X-Amz-Expires"
      let dateParam := getParam url "X-Amz-Date"
      if isFalsyStr expiresParam = true ∨ isFalsyStr dateParam = true then true
      else
        let dateObj := parseAmzDate (dateParam.getD "")
        match refreshExpiryMs with
        | some maxAgeMs =>
          match dateObj with
          | some t => decide (now - t ≥ maxAgeMs)
          | none => false
        | none =>
          match dateObj, jsParseInt (expiresParam.getD "") with
          | some t, some n =>
            decide (t + n * 1000 ≤ now + bufferSeconds * 1000)
          | _, _ => false

/-- The signed-URL issuer `getMinioURL` (lines 85-96), abstracted: given
`(basePath, userId, fileName)` it either returns a fresh signed URL or
throws. -/
def SignFn : Type := String → String → String → Except ErrObj String

/-- `getNewMinioURL` (lines 333-357): extract and split the key, give up
(`undefined`, all errors caught and logged) on a falsy key, fewer than
three parts, or an issuer failure; otherwise return the reissued URL for
`(keyParts[0], keyParts[1], keyParts.slice(2).join('/'))`. -/
def getNewMinioURL (sign : SignFn) (currentURL : String) : Option String :=
  match extractKeyFromMinioUrl currentURL with
  | Except.error _ => none
  | Except.ok minioKey =>
    if minioKey = "" then none
    else
      let keyParts := jsSplitSlash minioKey
      if keyParts.length < 3 then none
      else
        match sign (keyParts.getD 0 "") (keyParts.getD 1 "")
            (jsJoinSlash (keyParts.drop 2)) with
        | Except.ok url => some url
        | Except.error _ => none

/-- The subset of a `MongoFile` record the adapter reads (`file_id`,
`filepath`, `source`); `Option` on the string fields models absent
(`undefined`) values, and a whole record may be `null` in the input array. -/
structure MFile where
  file_id : Option String
  filepath : Option String
  source : String
deriving DecidableEq

/-- One iteration of the `refreshMinioFileUrls` loop (lines 374-401):
the unchanged record and no update when any of the guards `continue`s
(falsy `file_id`, foreign `source`, falsy `filepath`, URL not stale, or no
new URL obtained), otherwise the record with its filepath substituted in
place together with the `(file_id, filepath)` update pushed for the batch. -/
def refreshStep (sign : SignFn) (bufferSeconds now : Int)
    (refreshExpiryMs : Option Int) (file : Option MFile) :
    Option MFile × Option (String × String) :=
  match file with
  | none => (none, none)
  | some f =>
    if isFalsyStr f.file_id = true then (some f, none)
    else if f.source ≠ FileSources_client then (some f, none)
    else if isFalsyStr f.filepath = true then (some f, none)
    else
      let fp := f.filepath.getD ""
      if needsRefresh fp bufferSeconds now refreshExpiryMs = false then
        (some f, none)
      else
        match getNewMinioURL sign fp with
        | none => (some f, none)
        | some newURL =>
          if newURL = "" then (some f, none)
          else
            (some { f with filepath := some newURL },
             some (f.file_id.getD "", newURL))

/-- The sequential pass of `refreshMinioFileUrls` over the array,

accumulating the in-place filepath substitutions and the `filesToUpdate`
batch in order. -/
def refreshLoop (sign : SignFn) (bufferSeconds now : Int)
    (refreshExpiryMs : Option Int) :
    List (Option MFile) → List (Option MFile) × List (String × String)
  | [] => ([], [])
  | f :: rest =>
    let r := refreshStep sign bufferSeconds now refreshExpiryMs f
    let rs := refreshLoop sign bufferSeconds now refreshExpiryMs rest
    (r.1 :: rs.1,
     match r.2 with
     | some u => u :: rs.2
     | none => rs.2)

/-- Observable outcome of `refreshMinioFileUrls`: the returned array, the
`filesToUpdate` batch, and how many times `batchUpdateFiles` was invoked. -/
structure RefreshResult where
  files : List (Option MFile)
  updates : List (String × String)
  persistCalls : Nat
deriving DecidableEq

/-- `refreshMinioFileUrls` (lines 367-408): return a falsy or empty array
unchanged without persisting; otherwise run the loop and call
`batchUpdateFiles(filesToUpdate)` once exactly when the batch is
non-empty. -/
def refreshMinioFileUrls (sign : SignFn) (files : List (Option MFile))
    (bufferSeconds now : Int) (refreshExpiryMs : Option Int) : RefreshResult :=
  if files.isEmpty then
    { files := files, updates := [], persistCalls := 0 }
  else
    let r := refreshLoop sign bufferSeconds now refreshExpiryMs files
    { files := r.1, updates := r.2,
      persistCalls := if r.2.length > 0 then 1 else 0 }

/-- The filepath a caller of `refreshMinioUrl` started from:
`fileObj?.filepath || ''`. -/
def origFilepath : Option MFile → String
  | none => ""
  | some f => f.filepath.getD ""

/-- `refreshMinioUrl` (lines 417-456): return `fileObj?.filepath || ''`
for a null record, a foreign source, or a falsy filepath; return the
filepath unchanged when it is not stale, when no key can be extracted
(falsy key or fewer than three parts), or when reissuing throws (the
`catch` at line 452); return the reissued URL otherwise. -/
def refreshMinioUrl (sign : SignFn) (fileObj : Option MFile)
    (bufferSeconds now : Int) (refreshExpiryMs : Option Int) : String :=
  match fileObj with
  | none => ""
  | some f =>
    if f.source ≠ FileSources_client ∨ isFalsyStr f.filepath = true then
      f.filepath.getD ""
    else
      let fp := f.filepath.getD ""
      if needsRefresh fp bufferSeconds now refreshExpiryMs = false then fp
      else
        match extractKeyFromMinioUrl fp with
        | Except.error _ => fp
        | Except.ok minioKey =>
          if minioKey = "" then fp
          else
            let keyParts := jsSplitSlash minioKey
            if keyParts.length < 3 then fp
            else
              match sign (keyParts.getD 0 "") (keyParts.getD 1 "")
                  (jsJoinSlash (keyParts.drop 2)) with
              | Except.error _ => fp
              | Except.ok newUrl => newUrl

/-- Errors observable from `deleteFileFromMinio`. -/
inductive DelErr where
  /-- `extractKeyFromMinioUrl` threw (empty filepath). -/
  | badInput (msg : String)
  /-- The `User ID mismatch` error thrown at line 134. -/
  | ownership (userId key : String)
  /-- A storage error re-raised by the outer `catch` (line 173). -/
  | storage (e : ErrObj)
deriving DecidableEq

/-- The storage commands `deleteFileFromMinio` sends, in order. -/
inductive MinioOp where
  /-- The pre-delete `HeadObjectCommand` existence probe (line 142). -/
  | headCheck
  /-- The `DeleteObjectCommand` (line 151). -/
  | deleteObj
  /-- The post-delete `HeadObjectCommand` verification probe (line 154). -/
  | headVerify
deriving DecidableEq

/-- The delete-and-verify tail of `deleteFileFromMinio` (lines 151-173):
the delete command is sent; if it throws, the outer `catch` swallows a
`NoSuchKey` error and re-raises anything else; on success the verification
probe is sent and its outcome (either way) is only logged. -/
def runDeletePhase (delRes : Except ErrObj Unit) (_verifyRes : Except ErrObj Unit) :
    Except DelErr Unit × List MinioOp :=
  match delRes with
  | Except.error e =>
    (if e.code = "NoSuchKey" then Except.ok () else Except.error (DelErr.storage e),
     [MinioOp.deleteObj])
  | Except.ok _ => (Except.ok (), [MinioOp.deleteObj, MinioOp.headVerify])

/-- `deleteFileFromMinio` (lines 128-175).  `headRes`, `delRes` and
`verifyRes` are the outcomes the storage client would give to the three
commands.  The key is extracted outside the `try`, then the ownership
check `key.includes(req.user.id)` runs before any storage command; inside
the `try` the existence probe returns early only on a `NotFound` error
(any other probe error falls through), after which the delete phase runs. -/
def deleteFileFromMinio (userId filepath : String)
    (headRes delRes verifyRes : Except ErrObj Unit) :
    Except DelErr Unit × List MinioOp :=
  match extractKeyFromMinioUrl filepath with
  | Except.error m => (Except.error (DelErr.badInput m), [])
  | Except.ok key =>
    if isInfixB userId key = false then
      (Except.error (DelErr.ownership userId key), [])
    else
      match headRes with
      | Except.error e =>
        if e.name = "NotFound" then (Except.ok (), [MinioOp.headCheck])
        else
          let r := runDeletePhase delRes verifyRes
          (r.1, MinioOp.headCheck :: r.2)
      | Except.ok _ =>
        let r := runDeletePhase delRes verifyRes
        (r.1, MinioOp.headCheck :: r.2)

/-- The local temporary file handed to `uploadFileToMinio` by Multer:
whether it is still present on disk, and its size as `fs.promises.stat`
reports it. -/
structure LocalFile where
  present : Bool
  size : Nat
deriving DecidableEq

/-- The value `uploadFileToMinio` resolves with: `{ filepath, bytes }`. -/
structure UploadResult where
  filepath : String
  bytes : Nat
deriving DecidableEq

/-- The `ENOENT` error `fs.promises.stat` raises for a missing file. -/
def statError : ErrObj := { name := "Error", code := "ENOENT" }

/-- The best-effort `fs.promises.unlink(file.path)` in the `catch` of
`uploadFileToMinio` (lines 210-219): the file is gone if the unlink
succeeded, untouched if the unlink itself threw (which is only logged). -/
def cleanupTemp (file : LocalFile) (unlinkRes : Except ErrObj Unit) : LocalFile :=
  match unlinkRes with
  | Except.ok _ => { file with present := false }
  | Except.error _ => file

/-- `uploadFileToMinio` (lines 187-222).  `putRes` and `signRes` are the
outcomes of the `PutObjectCommand` and of the signed-URL issuance.  The
byte count is read from `fs.promises.stat` before streaming.  On the
success path the function returns `{ filepath, bytes }` and performs no
cleanup; on any error the temporary file is unlinked best-effort and the
original error is re-raised. -/
def uploadFileToMinio (file : LocalFile) (putRes : Except ErrObj Unit)
    (signRes : Except ErrObj String) (unlinkRes : Except ErrObj Unit) :
    Except ErrObj UploadResult × LocalFile :=
  if file.present = false then
    (Except.error statError, cleanupTemp file unlinkRes)
  else
    match putRes with
    | Except.error e => (Except.error e, cleanupTemp file unlinkRes)
    | Except.ok _ =>
      match signRes with
      | Except.error e => (Except.error e, cleanupTemp file unlinkRes)
      | Except.ok fileURL =>
        (Except.ok { filepath := fileURL, bytes := file.size }, file)

/-! ## Concrete instances used by the witnesses -/

/-- A concrete signed-URL issuer that always succeeds, returning the
reissued URL for the reconstructed key. -/
def signOk : SignFn := fun basePath userId fileName =>
  Except.ok ("s://h/" ++ basePath ++ "/" ++ userId ++ "/" ++ fileName)

/-- A signed URL with issue time `2024-01-15T10:00:00Z` (epoch
`1705312800000` ms) and a 3600-second TTL. -/
def sampleSignedUrl : String :=
  "s://h/k?X-Amz-Signature=x&X-Amz-Date=20240115T100000Z&X-Amz-Expires=3600"

/-- The parse of `sampleSignedUrl`. -/
def sampleUrlParsed : JsUrl :=
  { pathname := "/k"
    query := [("X-Amz-Signature", "x"), ("X-Amz-Date", "20240115T100000Z"),
              ("X-Amz-Expires", "3600")] }

/-- The same signed URL with a non-numeric TTL parameter. -/
def sampleSignedUrlBadTTL : String :=
  "s://h/k?X-Amz-Signature=x&X-Amz-Date=20240115T100000Z&X-Amz-Expires=xyz"

/-- The parse of `sampleSignedUrlBadTTL`. -/
def sampleUrlBadTTLParsed : JsUrl :=
  { pathname := "/k"
    query := [("X-Amz-Signature", "x"), ("X-Amz-Date", "20240115T100000Z"),
              ("X-Amz-Expires", "xyz")] }

/-- A URL that carries the signature marker together with a malformed
`X-Amz-Date` and a well-formed TTL. -/
def badDateUrl : String :=
  "s://h/k?X-Amz-Signature=x&X-Amz-Date=garbage&X-Amz-Expires=3600"

/-- A signed URL that carries the signature marker but no issuance-time or
TTL parameters, so `needsRefresh` reports it stale; its pathname decodes
to the key `images/u1/f`. -/
def staleUrl : String := "s://h/images/u1/f?X-Amz-Signature=x"

/-- A backend-tagged record with id `a` pointing at `staleUrl`. -/
def fileA : MFile :=
  { file_id := some "a", filepath := some staleUrl, source := FileSources_client }

/-- A backend-tagged record whose filepath `a/b` is stale (unparseable as a
URL) but undecodable as a key (only two segments). -/
def fileBad : MFile :=
  { file_id := none, filepath := some "a/b", source := FileSources_client }

/-- A signed-URL issuer that always fails. -/
def signErr : SignFn := fun _ _ _ =>
  Except.error { name := "SignError", code := "" }

/-! ## Claim theorems -/

/-- Claim C1, counterexample: uploading a present 4096-byte local file with
the remote write and the URL issuance succeeding returns
`{ byteSize := 4096 }`, but the local temporary file still exists after the
call returns — `uploadFileToMinio` has no success-path cleanup, contrary to
the claim that the file no longer exists on the success path as well. -/
theorem uploadFileToMinio_success_keeps_temp :
    (uploadFileToMinio { present := true, size := 4096 }
        (Except.ok ()) (Except.ok "u") (Except.ok ())).1
      = Except.ok { filepath := "u", bytes := 4096 }
    ∧ (uploadFileToMinio { present := true, size := 4096 }
        (Except.ok ()) (Except.ok "u") (Except.ok ())).2.present = true := by
  exact ⟨rfl, rfl⟩

/-- Claim C1, amended: for every present local file, the returned byte size
equals the size read by `stat` before streaming and the temporary file is
left in place on the success path; on a remote-write failure (and on a
URL-issuance failure) the temporary file is removed best-effort
(`cleanupTemp`) and the original error is re-raised. -/
theorem uploadFileToMinio_bytes_and_cleanup (n : Nat) (url : String)
    (e : ErrObj) (signRes : Except ErrObj String)
    (unlinkRes : Except ErrObj Unit) :
    (uploadFileToMinio { present := true, size := n }
        (Except.ok ()) (Except.ok url) unlinkRes
      = (Except.ok { filepath := url, bytes := n }, { present := true, size := n }))
    ∧ (uploadFileToMinio { present := true, size := n }
        (Except.error e) signRes unlinkRes
      = (Except.error e, cleanupTemp { present := true, size := n } unlinkRes))
    ∧ (uploadFileToMinio { present := true, size := n }
        (Except.ok ()) (Except.error e) unlinkRes
      = (Except.error e, cleanupTemp { present := true, size := n } unlinkRes)) := by
  exact ⟨rfl, rfl, rfl⟩

/-- Claim C3: with the `X-Amz-Signature` marker present and `X-Amz-Date`
malformed (`garbage`), `needsRefresh` reports the URL as fresh (`false`)
for every clock value, under the default policy and under the max-age
override alike — the `Invalid Date` produced by the malformed field makes
every comparison `NaN`-false instead of triggering the fail-safe; likewise
an unparseable TTL field (`X-Amz-Expires=xyz`) yields `NaN` and `false` —
whereas an unparseable URL does take the fail-safe path and reports
stale. -/
theorem needsRefresh_malformed_date_reports_fresh :
    needsRefresh badDateUrl 0 0 none = false
    ∧ needsRefresh badDateUrl 3600 1705312800000 none = false
    ∧ needsRefresh badDateUrl 0 1705312800000 (some 1000) = false
    ∧ needsRefresh sampleSignedUrlBadTTL 0 1705312800000 none = false
    ∧ needsRefresh "::not a url::" 0 0 none = true := by
  exact ⟨rfl, rfl, rfl, rfl, rfl⟩

/-- Claim C10: once the key is decoded and the ownership check passes, a
pre-delete existence-probe error whose `name` is not `NotFound` is
swallowed and the `DeleteObjectCommand` is still issued, while a
`NotFound` probe error makes the call return successfully with only the
probe issued and no delete. -/
theorem deleteFileFromMinio_probe_error_swallowed (userId fp key : String)
    (delRes verifyRes : Except ErrObj Unit) (e : ErrObj)
    (hk : extractKeyFromMinioUrl fp = Except.ok key)
    (ho : isInfixB userId key = true) :
    (e.name ≠ "NotFound" →
      MinioOp.deleteObj
        ∈ (deleteFileFromMinio userId fp (Except.error e) delRes verifyRes).2)
    ∧ (e.name = "NotFound" →
      deleteFileFromMinio userId fp (Except.error e) delRes verifyRes
        = (Except.ok (), [MinioOp.headCheck])) := by
  unfold deleteFileFromMinio
  rw [hk]
  simp only [ho]
  constructor
  · intro hn
    rw [if_neg (by simp)]
    rw [if_neg hn]
    unfold runDeletePhase
    cases delRes <;> simp
  · intro hn
    rw [if_neg (by simp)]
    rw [if_pos hn]

/-- Witness for C10: a transient probe error (`name = "NetworkError"`) on
an owned key still leads to the delete command being issued. -/
theorem deleteFileFromMinio_probe_error_swallowed_witness :
    MinioOp.deleteObj
      ∈ (deleteFileFromMinio "u1" "images/u1/f"
          (Except.error { name := "NetworkError", code := "" })
          (Except.ok ()) (Except.ok ())).2 :=
  (deleteFileFromMinio_probe_error_swallowed "u1" "images/u1/f" "images/u1/f"
    (Except.ok ()) (Except.ok ()) { name := "NetworkError", code := "" }
    rfl rfl).1 (by decide)

/-- Claim C2, counterexample: for the record filepath `images/alice/f.txt`
the decoded ownerId segment is `alice`, which is not contained in the
requesting identity `f`; the claim therefore demands an ownership error
with no storage operation, yet the call proceeds and succeeds — the code
tests whether the requester id occurs anywhere in the whole key
(`f` occurs in `f.txt`), not whether the ownerId segment is contained in
the requester's identity. -/
theorem deleteFileFromMinio_ownership_counterexample :
    decodeKeyTriple "images/alice/f.txt" = some ("images", "alice", "f.txt")
    ∧ isInfixB "alice" "f" = false
    ∧ (deleteFileFromMinio "f" "images/alice/f.txt"
        (Except.ok ()) (Except.ok ()) (Except.error { name := "NotFound", code := "" })).1
      = Except.ok ()
    ∧ (deleteFileFromMinio "f" "images/alice/f.txt"
        (Except.ok ()) (Except.ok ()) (Except.error { name := "NotFound", code := "" })).2
      ≠ [] := by
  refine ⟨rfl, rfl, rfl, ?_⟩
  decide

/-- Claim C2, amended: `deleteFileFromMinio` raises the ownership error and
performs no storage operation exactly when the requesting user's id does
not occur as a substring of the whole decoded key
(`key.includes(req.user.id)` being false); whenever the id does occur
somewhere in the key the delete proceeds. -/
theorem deleteFileFromMinio_ownership_check (userId fp key : String)
    (headRes delRes verifyRes : Except ErrObj Unit)
    (hk : extractKeyFromMinioUrl fp = Except.ok key) :
    ((deleteFileFromMinio userId fp headRes delRes verifyRes).1
        = Except.error (DelErr.ownership userId key)
      ∧ (deleteFileFromMinio userId fp headRes delRes verifyRes).2 = [])
    ↔ isInfixB userId key = false := by
  unfold deleteFileFromMinio
  rw [hk]
  cases hinc : isInfixB userId key with
  | false => simp [hinc]
  | true =>
    dsimp only
    rw [if_neg (by simp [hinc])]
    simp only [hinc, Bool.true_eq_false, iff_false]
    cases headRes with
    | error e =>
      by_cases hn : e.name = "NotFound"
      · simp [hn]
      · simp [hn]
    | ok v => simp

/-- Witness for C2: requester `zz` does not occur in the key
`images/u1/f`, so the call fails with the ownership error and issues no
storage command. -/
theorem deleteFileFromMinio_ownership_check_witness :
    (deleteFileFromMinio "zz" "images/u1/f"
        (Except.ok ()) (Except.ok ()) (Except.ok ())).1
      = Except.error (DelErr.ownership "zz" "images/u1/f")
    ∧ (deleteFileFromMinio "zz" "images/u1/f"
        (Except.ok ()) (Except.ok ()) (Except.ok ())).2 = [] :=
  (deleteFileFromMinio_ownership_check "zz" "images/u1/f" "images/u1/f"
    (Except.ok ()) (Except.ok ()) (Except.ok ()) rfl).mpr (by decide)

/-- Claim C7: for a signed URL carrying the `X-Amz-Signature` marker and
parseable issuance-time and TTL parameters, with no max-age override
configured, `needsRefresh` reports stale exactly when
`issuedAt + ttl*1000 <= now + bufferSeconds*1000` (all in milliseconds,
i.e. `issuedAt + ttlSeconds <= now + bufferSeconds` in seconds). -/
theorem needsRefresh_buffer_policy (s : String) (u : JsUrl)
    (bufferSeconds now : Int) (d e : String) (t ttl : Int)
    (hp : parseURL s = some u)
    (hsig : hasParam u "X-Amz-Signature" = true)
    (he : getParam u "X-Amz-Expires" = some e)
    (hd : getParam u "X-Amz-Date" = some d)
    (hene : e ≠ "") (hdne : d ≠ "")
    (ht : parseAmzDate d = some t)
    (httl : jsParseInt e = some ttl) :
    needsRefresh s bufferSeconds now none
      = decide (t + ttl * 1000 ≤ now + bufferSeconds * 1000) := by
  unfold needsRefresh
  rw [hp]
  dsimp only
  rw [if_neg (by simp [hsig])]
  rw [he, hd]
  rw [if_neg (by simp [isFalsyStr, hene, hdne])]
  dsimp only [Option.getD]
  rw [ht, httl]

/-- Witness for C7: the sample URL issued at `2024-01-15T10:00:00Z` with a
3600-second TTL and zero buffer is stale 3700 seconds after issuance and
fresh 10 seconds after issuance. -/
theorem needsRefresh_buffer_policy_witness :
    needsRefresh sampleSignedUrl 0 (1705312800000 + 3700000) none = true
    ∧ needsRefresh sampleSignedUrl 0 (1705312800000 + 10000) none = false := by
  constructor
  · exact (needsRefresh_buffer_policy sampleSignedUrl sampleUrlParsed 0
      (1705312800000 + 3700000) "20240115T100000Z" "3600" 1705312800000 3600
      rfl rfl rfl rfl (by decide) (by decide) rfl rfl).trans (by decide)
  · exact (needsRefresh_buffer_policy sampleSignedUrl sampleUrlParsed 0
      (1705312800000 + 10000) "20240115T100000Z" "3600" 1705312800000 3600
      rfl rfl rfl rfl (by decide) (by decide) rfl rfl).trans (by decide)

/-- Claim C8: when the max-age override `MINIO_REFRESH_EXPIRY_MS` is
configured, `needsRefresh` on a signed URL (marker present, issuance-time
and TTL parameters present, issuance time parseable) reports stale exactly
when `now - issuedAt >= maxAgeMs`; the TTL parameter's value is entirely
ignored — the theorem holds for an arbitrary non-empty `X-Amz-Expires`
string. -/
theorem needsRefresh_maxAge_policy (s : String) (u : JsUrl)
    (bufferSeconds now maxAgeMs : Int) (d e : String) (t : Int)
    (hp : parseURL s = some u)
    (hsig : hasParam u "X-Amz-Signature" = true)
    (he : getParam u "X-Amz-Expires" = some e)
    (hd : getParam u "X-Amz-Date" = some d)
    (hene : e ≠ "") (hdne : d ≠ "")
    (ht : parseAmzDate d = some t) :
    needsRefresh s bufferSeconds now (some maxAgeMs)
      = decide (now - t ≥ maxAgeMs) := by
  unfold needsRefresh
  rw [hp]
  dsimp only
  rw [if_neg (by simp [hsig])]
  rw [he, hd]
  rw [if_neg (by simp [isFalsyStr, hene, hdne])]
  dsimp only [Option.getD]
  rw [ht]

/-- Witness for C8: with `maxAgeMs = 1000`, the sample URL is stale 2000 ms
after issuance despite its 3600-second TTL, and the variant whose TTL
parameter is the unparseable string `xyz` behaves identically — the TTL is
ignored. -/
theorem needsRefresh_maxAge_policy_witness :
    needsRefresh sampleSignedUrl 3600 (1705312800000 + 2000) (some 1000) = true
    ∧ needsRefresh sampleSignedUrlBadTTL 3600 (1705312800000 + 2000) (some 1000)
      = true := by
  constructor
  · exact (needsRefresh_maxAge_policy sampleSignedUrl sampleUrlParsed 3600
      (1705312800000 + 2000) 1000 "20240115T100000Z" "3600" 1705312800000
      rfl rfl rfl rfl (by decide) (by decide) rfl).trans (by decide)
  · exact (needsRefresh_maxAge_policy sampleSignedUrlBadTTL sampleUrlBadTTLParsed
      3600 (1705312800000 + 2000) 1000 "20240115T100000Z" "xyz" 1705312800000
      rfl rfl rfl rfl (by decide) (by decide) rfl).trans (by decide)

/-- Claim C4, counterexample: the filepath `a/b` yields only two
`/`-separated segments, yet `extractKeyFromMinioUrl` returns the value
`a/b` instead of throwing — the function throws only on empty input. -/
theorem extractKeyFromMinioUrl_short_key_returns_value :
    extractKeyFromMinioUrl "a/b" = Except.ok "a/b"
    ∧ (jsSplitSlash "a/b").length = 2 := by
  exact ⟨rfl, rfl⟩

/-- Claim C4, amended: key decoding never throws on a non-empty filepath;
when the extracted key has fewer than three `/`-separated segments it is
the *callers* that give up — `getNewMinioURL` returns no value (and
`refreshMinioUrl` correspondingly keeps the original filepath), because
basePath and ownerId cannot be reconstructed. -/
theorem extractKeyFromMinioUrl_total_short_skipped (s : String) (sign : SignFn)
    (hs : s ≠ "") :
    (∃ k, extractKeyFromMinioUrl s = Except.ok k)
    ∧ (∀ k, extractKeyFromMinioUrl s = Except.ok k →
        (jsSplitSlash k).length < 3 → getNewMinioURL sign s = none) := by
  constructor
  · unfold extractKeyFromMinioUrl
    rw [if_neg hs]
    cases hp : parseURL s with
    | some u => exact ⟨_, rfl⟩
    | none =>
      dsimp only
      by_cases hc : 3 ≤ (jsSplitSlash s).length
          ∧ jsStartsWith s "http" = false ∧ jsStartsWith s "/" = false
      · rw [if_pos hc]; exact ⟨_, rfl⟩
      · rw [if_neg hc]; exact ⟨_, rfl⟩
  · intro k hk hlen
    unfold getNewMinioURL
    rw [hk]
    dsimp only
    by_cases hk0 : k = ""
    · rw [if_pos hk0]
    · rw [if_neg hk0]
      rw [if_pos hlen]

/-- Witness for C4: the two-segment filepath `a/b` decodes to the value
`a/b` without an error, and `getNewMinioURL` skips it. -/
theorem extractKeyFromMinioUrl_total_short_skipped_witness :
    getNewMinioURL signOk "a/b" = none :=
  (extractKeyFromMinioUrl_total_short_skipped "a/b" signOk (by decide)).2
    "a/b" rfl (by decide)

/-- Full case analysis of `refreshMinioUrl`: the result is the original
filepath, or the record is backend-sourced with a non-falsy stale filepath
that decodes to a `(basePath, ownerId, fileName)` triple on which the
issuer succeeds, and the result is exactly the issued URL. -/
theorem refreshMinioUrl_cases (sign : SignFn) (fileObj : Option MFile)
    (bufferSeconds now : Int) (refreshExpiryMs : Option Int) :
    refreshMinioUrl sign fileObj bufferSeconds now refreshExpiryMs
      = origFilepath fileObj
    ∨ (∃ f basePath userId fileName u, fileObj = some f
        ∧ f.source = FileSources_client
        ∧ isFalsyStr f.filepath = false
        ∧ needsRefresh (f.filepath.getD "") bufferSeconds now refreshExpiryMs
            = true
        ∧ decodeKeyTriple (f.filepath.getD "")
            = some (basePath, userId, fileName)
        ∧ sign basePath userId fileName = Except.ok u
        ∧ refreshMinioUrl sign fileObj bufferSeconds now refreshExpiryMs
            = u) := by
  cases fileObj with
  | none => left; rfl
  | some f =>
    unfold refreshMinioUrl origFilepath
    dsimp only
    by_cases h1 : f.source ≠ FileSources_client ∨ isFalsyStr f.filepath = true
    · left; rw [if_pos h1]
    · rw [if_neg h1]
      push_neg at h1
      cases h2 : needsRefresh (f.filepath.getD "") bufferSeconds now
          refreshExpiryMs with
      | false => left; rw [if_pos rfl]
      | true =>
        rw [if_neg (by simp [h2])]
        cases hk : extractKeyFromMinioUrl (f.filepath.getD "") with
        | error m => left; rfl
        | ok key =>
          dsimp only
          by_cases hk0 : key = ""
          · left; rw [if_pos hk0]
          · rw [if_neg hk0]
            by_cases hl : (jsSplitSlash key).length < 3
            · left; rw [if_pos hl]
            · rw [if_neg hl]
              cases hsign : sign ((jsSplitSlash key).getD 0 "")
                  ((jsSplitSlash key).getD 1 "")
                  (jsJoinSlash ((jsSplitSlash key).drop 2)) with
              | error err => left; rfl
              | ok newUrl =>
                right
                have hdec : decodeKeyTriple (f.filepath.getD "")
                    = some ((jsSplitSlash key).getD 0 "",
                            (jsSplitSlash key).getD 1 "",
                            jsJoinSlash ((jsSplitSlash key).drop 2)) := by
                  unfold decodeKeyTriple
                  rw [hk]
                  dsimp only
                  rw [if_neg hk0, if_neg hl]
                refine ⟨f, _, _, _, newUrl, rfl, h1.1, ?_, h2, hdec, hsign, rfl⟩
                cases hfb : isFalsyStr f.filepath with
                | false => rfl
                | true => exact absurd hfb h1.2

/-- Claim C9: `refreshMinioUrl` never throws — the embedding returns a
plain string on every input, including null records and malformed,
undecodable or missing filepaths — and:
(i) its result is either the original filepath (`fileObj?.filepath || ''`)
unchanged, or — only for a record tagged with this backend's source whose
non-falsy filepath is stale — a URL freshly returned by the signed-URL
issuer;
(ii) when the filepath's key is undecodable (it yields no
`(basePath, ownerId, fileName)` triple), the result is the original
filepath unchanged;
(iii) when the internal reissue fails (the issuer errors on the decoded
triple), the result is the original filepath unchanged. -/
theorem refreshMinioUrl_safe (sign : SignFn) (fileObj : Option MFile)
    (bufferSeconds now : Int) (refreshExpiryMs : Option Int) :
    (refreshMinioUrl sign fileObj bufferSeconds now refreshExpiryMs
        = origFilepath fileObj
      ∨ (∃ f, fileObj = some f
          ∧ f.source = FileSources_client
          ∧ isFalsyStr f.filepath = false
          ∧ needsRefresh (f.filepath.getD "") bufferSeconds now refreshExpiryMs
              = true
          ∧ ∃ basePath userId fileName,
              sign basePath userId fileName
                = Except.ok
                    (refreshMinioUrl sign fileObj bufferSeconds now
                      refreshExpiryMs)))
    ∧ (decodeKeyTriple (origFilepath fileObj) = none →
        refreshMinioUrl sign fileObj bufferSeconds now refreshExpiryMs
          = origFilepath fileObj)
    ∧ (∀ basePath userId fileName e,
        decodeKeyTriple (origFilepath fileObj)
            = some (basePath, userId, fileName) →
        sign basePath userId fileName = Except.error e →
        refreshMinioUrl sign fileObj bufferSeconds now refreshExpiryMs
          = origFilepath fileObj) := by
  rcases refreshMinioUrl_cases sign fileObj bufferSeconds now refreshExpiryMs
    with hL | ⟨f, b, o, fn, u, hfm, hsrc, hfalsy, hstale, hdec, hsign, hres⟩
  · exact ⟨Or.inl hL, fun _ => hL, fun _ _ _ _ _ _ => hL⟩
  · have horig : origFilepath fileObj = f.filepath.getD "" := by
      rw [hfm]; rfl
    refine ⟨Or.inr ⟨f, hfm, hsrc, hfalsy, hstale, b, o, fn, ?_⟩, ?_, ?_⟩
    · rw [hres]; exact hsign
    · intro hnone
      rw [horig, hdec] at hnone
      exact absurd hnone (by simp)
    · intro b' o' fn' e hsome herr
      rw [horig, hdec] at hsome
      have htrip := Option.some.inj hsome
      have hb : b = b' := congrArg (fun p => p.1) htrip
      have ho : o = o' := congrArg (fun p => p.2.1) htrip
      have hfn : fn = fn' := congrArg (fun p => p.2.2) htrip
      rw [hb, ho, hfn, herr] at hsign
      exact absurd hsign (by simp)

/-- Witness for C9: the record with the undecodable filepath `a/b` keeps
its filepath unchanged even with a succeeding issuer, and the decodable
stale record `fileA` keeps its filepath unchanged when the issuer fails. -/
theorem refreshMinioUrl_safe_witness :
    refreshMinioUrl signOk (some fileBad) 0 0 none = "a/b"
    ∧ refreshMinioUrl signErr (some fileA) 0 0 none = staleUrl := by
  constructor
  · exact ((refreshMinioUrl_safe signOk (some fileBad) 0 0 none).2.1 rfl).trans
      rfl
  · exact ((refreshMinioUrl_safe signErr (some fileA) 0 0 none).2.2
      "images" "u1" "f" { name := "SignError", code := "" } rfl rfl).trans rfl

/-- The per-record pass either leaves the record untouched with no update
pushed, or — only for a record with a non-falsy id, this backend's source
tag, a non-falsy filepath and a stale URL — substitutes the reissued URL
in place and pushes `(file_id, newURL)`. -/
theorem refreshStep_characterize (sign : SignFn) (bufferSeconds now : Int)
    (refreshExpiryMs : Option Int) (file : Option MFile) :
    refreshStep sign bufferSeconds now refreshExpiryMs file = (file, none)
    ∨ ∃ mf fid newURL, file = some mf
        ∧ refreshStep sign bufferSeconds now refreshExpiryMs file
            = (some { mf with filepath := some newURL }, some (fid, newURL))
        ∧ mf.file_id = some fid
        ∧ isFalsyStr mf.file_id = false
        ∧ mf.source = FileSources_client
        ∧ isFalsyStr mf.filepath = false
        ∧ needsRefresh (mf.filepath.getD "") bufferSeconds now refreshExpiryMs
            = true := by
  cases file with
  | none => left; rfl
  | some f =>
    unfold refreshStep
    dsimp only
    by_cases h1 : isFalsyStr f.file_id = true
    · left; rw [if_pos h1]
    · rw [if_neg h1]
      by_cases hsrc : f.source ≠ FileSources_client
      · left; rw [if_pos hsrc]
      · rw [if_neg hsrc]
        by_cases h3 : isFalsyStr f.filepath = true
        · left; rw [if_pos h3]
        · rw [if_neg h3]
          by_cases h4 : needsRefresh (f.filepath.getD "") bufferSeconds now
              refreshExpiryMs = false
          · left; rw [if_pos h4]
          · rw [if_neg h4]
            cases hn : getNewMinioURL sign (f.filepath.getD "") with
            | none => left; rfl
            | some u =>
              dsimp only
              by_cases h5 : u = ""
              · left; rw [if_pos h5]
              · rw [if_neg h5]
                right
                cases hid : f.file_id with
                | none => exact absurd (by rw [hid]; rfl) h1
                | some v =>
                  refine ⟨f, v, u, rfl, ?_, hid, ?_, ?_, ?_, ?_⟩
                  · rw [hid]; rfl
                  · cases hb : isFalsyStr f.file_id with
                    | false => rfl
                    | true => exact absurd hb h1
                  · exact of_not_not hsrc
                  · cases hb : isFalsyStr f.filepath with
                    | false => rfl
                    | true => exact absurd hb h3
                  · cases hb : needsRefresh (f.filepath.getD "") bufferSeconds
                        now refreshExpiryMs with
                    | true => rfl
                    | false => exact absurd hb h4

/-- The sequential loop of `refreshMinioFileUrls` is the pointwise map of
`refreshStep` over the array paired with the collected updates. -/
theorem refreshLoop_eq (sign : SignFn) (bufferSeconds now : Int)
    (refreshExpiryMs : Option Int) (files : List (Option MFile)) :
    refreshLoop sign bufferSeconds now refreshExpiryMs files
      = (files.map
          (fun f => (refreshStep sign bufferSeconds now refreshExpiryMs f).1),
         files.filterMap
          (fun f => (refreshStep sign bufferSeconds now refreshExpiryMs f).2)) := by
  induction files with
  | nil => rfl
  | cons f rest ih =>
    unfold refreshLoop
    rw [ih]
    rw [List.map_cons, List.filterMap_cons]
    cases hstep : (refreshStep sign bufferSeconds now refreshExpiryMs f).2 with
    | none => dsimp only; rw [hstep]
    | some u => dsimp only; rw [hstep]

/-- Claim C6: `refreshMinioFileUrls` calls the persistence callback exactly
once when the update batch is non-empty and never otherwise; the returned
array is the input array with the per-record pass applied in place (a pass
that leaves every non-refreshed record — in particular its filepath —
unchanged); and every update in the batch comes from a record that has an
id, has a filepath, is tagged with this backend's source, and whose URL is
stale, that record being returned with exactly that update's filepath
substituted. -/
theorem refreshMinioFileUrls_spec (sign : SignFn) (files : List (Option MFile))
    (bufferSeconds now : Int) (refreshExpiryMs : Option Int) :
    (refreshMinioFileUrls sign files bufferSeconds now refreshExpiryMs).persistCalls
      = (if (refreshMinioFileUrls sign files bufferSeconds now
              refreshExpiryMs).updates = [] then 0 else 1)
    ∧ (refreshMinioFileUrls sign files bufferSeconds now refreshExpiryMs).files
      = files.map (fun f => (refreshStep sign bufferSeconds now refreshExpiryMs f).1)
    ∧ (refreshMinioFileUrls sign files bufferSeconds now refreshExpiryMs).updates
      = files.filterMap
          (fun f => (refreshStep sign bufferSeconds now refreshExpiryMs f).2)
    ∧ (∀ f, (refreshStep sign bufferSeconds now refreshExpiryMs f).2 = none →
        (refreshStep sign bufferSeconds now refreshExpiryMs f).1 = f)
    ∧ (∀ fid newURL,
        (fid, newURL)
          ∈ (refreshMinioFileUrls sign files bufferSeconds now
              refreshExpiryMs).updates →
        ∃ mf, some mf ∈ files
          ∧ mf.file_id = some fid
          ∧ mf.source = FileSources_client
          ∧ isFalsyStr mf.filepath = false
          ∧ needsRefresh (mf.filepath.getD "") bufferSeconds now refreshExpiryMs
              = true
          ∧ (refreshStep sign bufferSeconds now refreshExpiryMs (some mf)).1
              = some { mf with filepath := some newURL }) := by
  have hmain :
      (refreshMinioFileUrls sign files bufferSeconds now refreshExpiryMs).files
        = files.map
            (fun f => (refreshStep sign bufferSeconds now refreshExpiryMs f).1)
      ∧ (refreshMinioFileUrls sign files bufferSeconds now
            refreshExpiryMs).updates
        = files.filterMap
            (fun f => (refreshStep sign bufferSeconds now refreshExpiryMs f).2)
      ∧ (refreshMinioFileUrls sign files bufferSeconds now
            refreshExpiryMs).persistCalls
        = (if (refreshMinioFileUrls sign files bufferSeconds now
                refreshExpiryMs).updates = [] then 0 else 1) := by
    unfold refreshMinioFileUrls
    cases files with
    | nil => exact ⟨rfl, rfl, by simp⟩
    | cons f0 rest =>
      rw [if_neg (by simp)]
      rw [refreshLoop_eq]
      dsimp only
      refine ⟨rfl, rfl, ?_⟩
      cases (f0 :: rest).filterMap
          (fun f => (refreshStep sign bufferSeconds now refreshExpiryMs f).2) with
      | nil => simp
      | cons a l => simp
  refine ⟨hmain.2.2, hmain.1, hmain.2.1, ?_, ?_⟩
  · intro f hnone
    rcases refreshStep_characterize sign bufferSeconds now refreshExpiryMs f with
      hL | ⟨mf, fid, u, hfm, heq, _⟩
    · rw [hL]
    · rw [heq] at hnone
      exact absurd hnone (by simp)
  · intro fid newURL hmem
    rw [hmain.2.1] at hmem
    rcases List.mem_filterMap.mp hmem with ⟨f, hfiles, hsome⟩
    rcases refreshStep_characterize sign bufferSeconds now refreshExpiryMs f with
      hL | ⟨mf, fid', u', hfm, heq, hid, _, hsrc, hfp, hstale⟩
    · rw [hL] at hsome
      exact absurd hsome (by simp)
    · rw [heq] at hsome
      have hpair : fid' = fid ∧ u' = newURL := by
        have := Option.some.inj hsome
        exact ⟨congrArg Prod.fst this, congrArg Prod.snd this⟩
      subst hfm
      refine ⟨mf, hfiles, ?_, hsrc, hfp, hstale, ?_⟩
      · rw [← hpair.1]; exact hid
      · rw [heq, ← hpair.2]

/-- Witness for C6: a one-element batch containing a backend-tagged record
with id `a` and a stale filepath produces exactly the update
`("a", "s://h/images/u1/f")`, and the theorem recovers the originating
record with the substituted filepath. -/
theorem refreshMinioFileUrls_spec_witness :
    ∃ mf, some mf ∈ [some fileA]
      ∧ mf.file_id = some "a"
      ∧ mf.source = FileSources_client
      ∧ isFalsyStr mf.filepath = false
      ∧ needsRefresh (mf.filepath.getD "") 0 0 none = true
      ∧ (refreshStep signOk 0 0 none (some mf)).1
          = some { mf with filepath := some "s://h/images/u1/f" } :=
  (refreshMinioFileUrls_spec signOk [some fileA] 0 0 none).2.2.2.2
    "a" "s://h/images/u1/f" (by decide)

/-- `takeWhile` passes over a block on which the predicate holds. -/
theorem takeWhile_append_all {α : Type} (p : α → Bool) (xs ys : List α)
    (h : ∀ x ∈ xs, p x = true) :
    (xs ++ ys).takeWhile p = xs ++ ys.takeWhile p := by
  induction xs with
  | nil => rfl
  | cons a as ih =>
    have ha : p a = true := h a (by simp)
    rw [List.cons_append, List.takeWhile_cons, if_pos ha,
      ih (fun x hx => h x (by simp [hx])), List.cons_append]

/-- `dropWhile` discards a block on which the predicate holds. -/
theorem dropWhile_append_all {α : Type} (p : α → Bool) (xs ys : List α)
    (h : ∀ x ∈ xs, p x = true) :
    (xs ++ ys).dropWhile p = ys.dropWhile p := by
  induction xs with
  | nil => rfl
  | cons a as ih =>
    have ha : p a = true := h a (by simp)
    rw [List.cons_append, List.dropWhile_cons, if_pos ha,
      ih (fun x hx => h x (by simp [hx]))]

/-- `splitOnChar` always yields at least one piece. -/
theorem splitOnChar_exists_cons (sep : Char) (cs : List Char) :
    ∃ g gs, splitOnChar sep cs = g :: gs := by
  induction cs with
  | nil => exact ⟨[], [], rfl⟩
  | cons c rest ih =>
    obtain ⟨g, gs, h⟩ := ih
    unfold splitOnChar
    rw [h]
    dsimp only
    by_cases hc : (c == sep) = true
    · rw [if_pos hc]; exact ⟨[], g :: gs, rfl⟩
    · rw [if_neg hc]; exact ⟨c :: g, gs, rfl⟩

/-- The defining equation of `splitOnChar` on a cons cell. -/
theorem splitOnChar_cons_eq (sep c : Char) (rest : List Char) :
    splitOnChar sep (c :: rest)
      = (match splitOnChar sep rest with
         | [] => [[]]
         | g :: gs =>
           if (c == sep) = true then [] :: g :: gs else (c :: g) :: gs) := rfl

/-- Splitting a list that starts with a separator-free block followed by a
separator peels the block off as the first piece. -/
theorem splitOnChar_append_sep (sep : Char) (a rest : List Char)
    (ha : ∀ x ∈ a, (x == sep) = false) :
    splitOnChar sep (a ++ sep :: rest) = a :: splitOnChar sep rest := by
  induction a with
  | nil =>
    obtain ⟨g, gs, h⟩ := splitOnChar_exists_cons sep rest
    rw [List.nil_append, splitOnChar_cons_eq, h]
    dsimp only
    rw [if_pos (by simp)]
  | cons x a' ih =>
    have hx : (x == sep) = false := ha x (by simp)
    have ih' := ih (fun y hy => ha y (by simp [hy]))
    rw [List.cons_append, splitOnChar_cons_eq, ih']
    dsimp only
    rw [if_neg (by simp [hx])]

/-- Re-attaching a leading character to the first piece. -/
theorem joinOnChar_cons_head (sep x : Char) (g : List Char)
    (gs : List (List Char)) :
    joinOnChar sep ((x :: g) :: gs) = x :: joinOnChar sep (g :: gs) := by
  cases gs <;> rfl

/-- `joinOnChar` is a left inverse of `splitOnChar`. -/
theorem joinOnChar_splitOnChar (sep : Char) (cs : List Char) :
    joinOnChar sep (splitOnChar sep cs) = cs := by
  induction cs with
  | nil => rfl
  | cons c rest ih =>
    obtain ⟨g, gs, h⟩ := splitOnChar_exists_cons sep rest
    unfold splitOnChar
    rw [h]
    dsimp only
    by_cases hc : (c == sep) = true
    · rw [if_pos hc]
      have hstep : joinOnChar sep ([] :: g :: gs)
          = sep :: joinOnChar sep (g :: gs) := rfl
      rw [hstep, ← h, ih]
      have : c = sep := by simpa using hc
      rw [this]
    · rw [if_neg hc]
      rw [joinOnChar_cons_head, ← h, ih]

/-- A string is empty exactly when its character list is. -/
theorem string_eq_empty_iff (s : String) : s = "" ↔ s.data = [] := by
  constructor
  · intro h; rw [h]
  · intro h
    cases s with
    | mk d =>
      have hd : d = [] := h
      subst hd
      rfl

/-- The characters of the encoded key. -/
theorem getMinioKey_data (b o f : String) :
    (getMinioKey b o f).data = b.data ++ '/' :: (o.data ++ '/' :: f.data) := by
  show (b ++ "/" ++ o ++ "/" ++ f).data = _
  have hslash : ("/" : String).data = ['/'] := rfl
  have happ : ∀ s t : String, (s ++ t).data = s.data ++ t.data := fun _ _ => rfl
  rw [happ, happ, happ, happ, hslash]
  simp [List.append_assoc]

/-- A character list containing `/` is not a valid URL scheme. -/
theorem validScheme_false_of_slash (l : List Char) (hc : '/' ∈ l) :
    validScheme l = false := by
  cases l with
  | nil => rfl
  | cons a as =>
    unfold validScheme
    cases hall : (a :: as).all isSchemeChar with
    | false => simp [hall]
    | true =>
      exfalso
      have := List.all_eq_true.mp hall '/' hc
      simp [isSchemeChar] at this

/-- `strHasChar` reflects membership of the character. -/
theorem not_hasChar_forall (s : String) (c : Char)
    (h : strHasChar s c = false) :
    ∀ x ∈ s.data, (x == c) = false := by
  intro x hx
  rw [beq_eq_false_iff_ne]
  intro hxc
  subst hxc
  unfold strHasChar at h
  have : List.elem x s.data = true := List.elem_iff.mpr hx
  rw [show s.data.contains x = List.elem x s.data from rfl] at h
  rw [this] at h
  simp at h

/-- A string whose characters start with a `/` preceded only by
colon-free characters cannot parse as a URL: the candidate scheme
contains the `/`. -/
theorem parseURL_eq_none_of_early_slash (s : String) (a rest : List Char)
    (hs : s.data = a ++ '/' :: rest) (ha : ∀ x ∈ a, (x == ':') = false) :
    parseURL s = none := by
  unfold parseURL
  rw [hs]
  have hp : ∀ x ∈ a, (fun c => !(c == ':')) x = true :=
    fun x hx => by simp [ha x hx]
  rw [dropWhile_append_all _ a ('/' :: rest) hp]
  rw [List.dropWhile_cons, if_pos (by simp)]
  cases hd : rest.dropWhile (fun c => !(c == ':')) with
  | nil => rfl
  | cons c q =>
    dsimp only
    rw [if_neg ?_]
    rw [takeWhile_append_all _ a ('/' :: rest) hp]
    rw [List.takeWhile_cons, if_pos (by simp)]
    rw [validScheme_false_of_slash _
      (List.mem_append_right a (List.mem_cons_self _ _))]
    simp

/-- A non-empty string whose first character is not `/` does not start
with `/`. -/
theorem jsStartsWith_slash_false (s : String) (c : Char) (cs : List Char)
    (h : s.data = c :: cs) (hc : (c == '/') = false) :
    jsStartsWith s "/" = false := by
  unfold jsStartsWith
  rw [h]
  show isPrefixListB ['/'] (c :: cs) = false
  unfold isPrefixListB
  have : ('/' == c) = false := by
    rw [beq_eq_false_iff_ne]
    intro h'
    rw [← h'] at hc
    simp at hc
  simp [this]

/-- When the input is non-empty, does not parse as a URL and has no
leading separator, `extractKeyFromMinioUrl` returns it unchanged. -/
theorem extractKey_bare (s : String) (hne : s ≠ "")
    (hpu : parseURL s = none) (hsw : jsStartsWith s "/" = false) :
    extractKeyFromMinioUrl s = Except.ok s := by
  unfold extractKeyFromMinioUrl
  rw [if_neg hne, hpu]
  dsimp only
  by_cases hc : 3 ≤ (jsSplitSlash s).length
      ∧ jsStartsWith s "http" = false ∧ jsStartsWith s "/" = false
  · rw [if_pos hc]
  · rw [if_neg hc, if_neg (by simp [hsw])]

/-- Claim C5, counterexample: the triple `("", "o", "f")` has no path
separator in basePath or ownerId, yet decoding the encoded key `"/o/f"`
yields no triple at all (the leading separator is stripped, leaving only
two segments), so `decode (encode basePath ownerId fileName)` does not
return the original triple. -/
theorem decode_encode_empty_basePath :
    decodeKeyTriple (getMinioKey "" "o" "f") = none
    ∧ strHasChar "" '/' = false
    ∧ strHasChar "o" '/' = false := by
  exact ⟨rfl, rfl, rfl⟩

/-- Claim C5, amended: for every triple whose basePath is non-empty and
contains neither a path separator nor a colon (a colon could make the
encoded key parse as a URL) and whose ownerId contains no path separator
(fileName may contain separators), decoding the encoded key
`basePath + "/" + ownerId + "/" + fileName` yields the original triple,
with all segments beyond the second rejoined into fileName by the same
separator. -/
theorem decode_encode_roundtrip (b o f : String)
    (hb : b ≠ "") (hbs : strHasChar b '/' = false)
    (hbc : strHasChar b ':' = false) (hos : strHasChar o '/' = false) :
    decodeKeyTriple (getMinioKey b o f) = some (b, o, f) := by
  have hbne : b.data ≠ [] := fun hd => hb ((string_eq_empty_iff b).mpr hd)
  obtain ⟨c0, cs0, hbd⟩ : ∃ c0 cs0, b.data = c0 :: cs0 := by
    cases hbd : b.data with
    | nil => exact absurd hbd hbne
    | cons c0 cs0 => exact ⟨_, _, rfl⟩
  have hkey_data := getMinioKey_data b o f
  have hpu : parseURL (getMinioKey b o f) = none :=
    parseURL_eq_none_of_early_slash _ b.data _ hkey_data
      (not_hasChar_forall b ':' hbc)
  have hswslash : jsStartsWith (getMinioKey b o f) "/" = false := by
    apply jsStartsWith_slash_false _ c0 (cs0 ++ '/' :: (o.data ++ '/' :: f.data))
    · rw [hkey_data, hbd]; rfl
    · exact not_hasChar_forall b '/' hbs c0 (by rw [hbd]; simp)
  have hne : getMinioKey b o f ≠ "" := by
    intro h
    have hd := (string_eq_empty_iff _).mp h
    rw [hkey_data] at hd
    exact absurd hd (by simp)
  have hext := extractKey_bare _ hne hpu hswslash
  have hsplit : splitOnChar '/' (getMinioKey b o f).data
      = b.data :: o.data :: splitOnChar '/' f.data := by
    rw [hkey_data,
      splitOnChar_append_sep '/' b.data _ (not_hasChar_forall b '/' hbs),
      splitOnChar_append_sep '/' o.data _ (not_hasChar_forall o '/' hos)]
  have hmk : ∀ s : String, String.mk s.data = s := fun _ => rfl
  have hjs : jsSplitSlash (getMinioKey b o f) = b :: o :: jsSplitSlash f := by
    unfold jsSplitSlash
    rw [hsplit, List.map_cons, List.map_cons, hmk, hmk]
  unfold decodeKeyTriple
  rw [hext]
  dsimp only
  rw [if_neg hne]
  rw [hjs]
  obtain ⟨g, gs, hg⟩ := splitOnChar_exists_cons '/' f.data
  have hlen : ¬ (b :: o :: jsSplitSlash f).length < 3 := by
    unfold jsSplitSlash
    rw [hg]
    simp
  rw [if_neg hlen]
  have hjoin : jsJoinSlash (jsSplitSlash f) = f := by
    unfold jsJoinSlash jsSplitSlash
    rw [List.map_map]
    have hcomp : (String.data ∘ String.mk) = (id : List Char → List Char) :=
      funext (fun _ => rfl)
    rw [hcomp, List.map_id, joinOnChar_splitOnChar]
  rw [List.getD_cons_zero, List.getD_cons_succ, List.getD_cons_zero]
  rw [show (b :: o :: jsSplitSlash f).drop 2 = jsSplitSlash f from rfl]
  rw [hjoin]

/-- Witness for C5: the triple `("images", "u1", "a/b.png")` — with a
separator inside fileName — round-trips through encode and decode. -/
theorem decode_encode_roundtrip_witness :
    decodeKeyTriple (getMinioKey "images" "u1" "a/b.png")
      = some ("images", "u1", "a/b.png") :=
  decode_encode_roundtrip "images" "u1" "a/b.png"
    (by decide) (by decide) (by decide) (by decide)
